import Mathlib

/-!
Verification of the google-bandwidth-controller repository.

This file gives a shallow embedding, in Lean 4, of the bandwidth
calculator (internal/bandwidth/calculator.go) and of the fleet
scheduler (internal/controller, file defining Scheduler), and proves
or refutes the specification claims about them.

Modelling conventions:
- Go float64 values are modelled as rationals, except for the
  sine-wave concurrency function which needs real sine and is
  modelled over the reals.
- Go int and int64 are modelled as unbounded integers; no claim here
  concerns overflow behaviour.
- Conversions int64(x) and int(x) from a float truncate toward zero;
  this is the function truncQ below (truncR over the reals).
- Calls to rand.Float64 and rand.Intn are modelled by explicit draw
  streams passed as extra arguments, one stream per call site, indexed
  by loop iteration, so that every possible sequence of draws is a
  possible argument.
-/

namespace Bandwidth

/-- Truncation toward zero on the rationals: the meaning of the Go
conversion int64(f) for a float64 f. -/
def truncQ (q : ℚ) : ℤ := if 0 ≤ q then ⌊q⌋ else ⌈q⌉

/-- Clamp from calculator.go: restricts an int value to a range. -/
def Clamp (value lo hi : ℤ) : ℤ :=
  if value < lo then lo else if value > hi then hi else value

/-- Clamp64 from calculator.go: restricts an int64 value to a range. -/
def Clamp64 (value lo hi : ℤ) : ℤ :=
  if value < lo then lo else if value > hi then hi else value

/-- ClampFloat from calculator.go: restricts a float64 value to a range. -/
def ClampFloat (value lo hi : ℚ) : ℚ :=
  if value < lo then lo else if value > hi then hi else value

theorem Clamp64_mem (value lo hi : ℤ) (h : lo ≤ hi) :
    lo ≤ Clamp64 value lo hi ∧ Clamp64 value lo hi ≤ hi := by
  unfold Clamp64
  split
  · exact ⟨le_refl _, h⟩
  · split
    · exact ⟨h, le_refl _⟩
    · omega

theorem truncQ_of_nonneg (q : ℚ) (h : 0 ≤ q) : truncQ q = ⌊q⌋ := by
  unfold truncQ
  exact if_pos h

theorem truncQ_le (q : ℚ) (h : 0 ≤ q) : (truncQ q : ℚ) ≤ q := by
  rw [truncQ_of_nonneg q h]
  exact Int.floor_le q

theorem lt_truncQ_add_one (q : ℚ) (h : 0 ≤ q) : q - 1 < (truncQ q : ℚ) := by
  rw [truncQ_of_nonneg q h]
  have := Int.sub_one_lt_floor q
  linarith

theorem truncQ_intCast (z : ℤ) : truncQ (z : ℚ) = z := by
  unfold truncQ
  split
  · exact Int.floor_intCast z
  · exact Int.ceil_intCast z

/-- The per-agent weight drawn in AllocateBandwidth:
0.5 plus a rand.Float64 draw. -/
def allocWeight (wDraw : ℕ → ℚ) (i : ℕ) : ℚ := 1/2 + wDraw i

/-- The first allocation loop of AllocateBandwidth for agent i:
proportional share of the target, clamped, randomly perturbed,
clamped again. -/
def firstPassAlloc (targetTotal : ℚ) (minPerAgent maxPerAgent : ℤ)
    (randomnessFactor : ℚ) (wDraw vDraw : ℕ → ℚ) (totalWeight : ℚ) (i : ℕ) : ℤ :=
  let proportion := allocWeight wDraw i / totalWeight
  let allocated0 := truncQ (proportion * targetTotal)
  let a1 := Clamp64 allocated0 minPerAgent maxPerAgent
  let variation := (a1 : ℚ) * randomnessFactor * (vDraw i * 2 - 1)
  let a2 := truncQ ((a1 : ℚ) + variation)
  Clamp64 a2 minPerAgent maxPerAgent

/-- The list produced by the first loop of AllocateBandwidth. -/
def allocFirstPass (targetTotal : ℚ) (numAgents : ℕ) (minPerAgent maxPerAgent : ℤ)
    (randomnessFactor : ℚ) (wDraw vDraw : ℕ → ℚ) : List ℤ :=
  let totalWeight := ((List.range numAgents).map (allocWeight wDraw)).sum
  (List.range numAgents).map
    (firstPassAlloc targetTotal minPerAgent maxPerAgent randomnessFactor wDraw vDraw totalWeight)

/-- AllocateBandwidth from calculator.go. Draw streams: wDraw i is the
rand.Float64 draw for agent i's weight, vDraw i the draw for agent i's
variation. After the first loop, if the summed allocation differs from
the (truncated) target and is positive, every entry is rescaled by
target/sum and clamped a final time. -/
def AllocateBandwidth (targetTotal : ℚ) (numAgents : ℕ) (minPerAgent maxPerAgent : ℤ)
    (randomnessFactor : ℚ) (wDraw vDraw : ℕ → ℚ) : List ℤ :=
  if numAgents = 0 then []
  else if (allocFirstPass targetTotal numAgents minPerAgent maxPerAgent
        randomnessFactor wDraw vDraw).sum ≠ truncQ targetTotal ∧
      0 < (allocFirstPass targetTotal numAgents minPerAgent maxPerAgent
        randomnessFactor wDraw vDraw).sum then
    (allocFirstPass targetTotal numAgents minPerAgent maxPerAgent
        randomnessFactor wDraw vDraw).map
      (fun a : ℤ => Clamp64
        (truncQ ((a : ℚ) *
          (targetTotal / ((allocFirstPass targetTotal numAgents minPerAgent maxPerAgent
            randomnessFactor wDraw vDraw).sum : ℚ))))
        minPerAgent maxPerAgent)
  else allocFirstPass targetTotal numAgents minPerAgent maxPerAgent randomnessFactor wDraw vDraw

theorem allocFirstPass_length (t : ℚ) (n : ℕ) (mi ma : ℤ) (rf : ℚ) (w v : ℕ → ℚ) :
    (allocFirstPass t n mi ma rf w v).length = n := by
  unfold allocFirstPass
  simp

theorem allocFirstPass_mem_bounds (t : ℚ) (n : ℕ) (mi ma : ℤ) (rf : ℚ) (w v : ℕ → ℚ)
    (h : mi ≤ ma) : ∀ a ∈ allocFirstPass t n mi ma rf w v, mi ≤ a ∧ a ≤ ma := by
  intro a ha
  unfold allocFirstPass at ha
  obtain ⟨i, _, rfl⟩ := List.mem_map.mp ha
  exact Clamp64_mem _ _ _ h

theorem AllocateBandwidth_length (t : ℚ) (n : ℕ) (mi ma : ℤ) (rf : ℚ) (w v : ℕ → ℚ) :
    (AllocateBandwidth t n mi ma rf w v).length = n := by
  unfold AllocateBandwidth
  split
  · simp [*]
  · split
    · simp [allocFirstPass_length]
    · exact allocFirstPass_length t n mi ma rf w v

theorem Clamp64_eq_self (value lo hi : ℤ) (h1 : lo ≤ value) (h2 : value ≤ hi) :
    Clamp64 value lo hi = value := by
  unfold Clamp64
  rw [if_neg (by omega), if_neg (by omega)]

/-- Claim C5: for every call to AllocateBandwidth with a positive number of
agents and minPerAgent at most maxPerAgent, every returned allocation lies
in the closed interval from minPerAgent to maxPerAgent, whatever the random
draws, the target and the randomness factor. -/
theorem allocate_within_bounds (t : ℚ) (n : ℕ) (mi ma : ℤ) (rf : ℚ) (w v : ℕ → ℚ)
    (hn : 0 < n) (h : mi ≤ ma) :
    ∀ a ∈ AllocateBandwidth t n mi ma rf w v, mi ≤ a ∧ a ≤ ma := by
  intro a ha
  unfold AllocateBandwidth at ha
  rw [if_neg (Nat.pos_iff_ne_zero.mp hn)] at ha
  split at ha
  · obtain ⟨b, _, rfl⟩ := List.mem_map.mp ha
    exact Clamp64_mem _ _ _ h
  · exact allocFirstPass_mem_bounds t n mi ma rf w v h a ha

/-- Witness for allocate_within_bounds at a concrete input. -/
theorem allocate_within_bounds_witness :
    0 < 2 ∧ (400:ℤ) ≤ 1200 ∧
      ∀ a ∈ AllocateBandwidth 1000 2 400 1200 0 (fun _ => 1/2) (fun _ => 1/2),
        400 ≤ a ∧ a ≤ 1200 :=
  ⟨by norm_num, by norm_num,
    allocate_within_bounds 1000 2 400 1200 0 (fun _ => 1/2) (fun _ => 1/2)
      (by norm_num) (by norm_num)⟩

/-- Claim C3 counterexample: with one selected worker and target zero (a
non-positive target), AllocateBandwidth does not return an empty allocation
set; it returns one allocation, clamped up to the lower bound. The zero
weight draw is one half and the randomness factor is zero. -/
theorem allocate_nonpositive_target_counterexample :
    AllocateBandwidth 0 1 400 1200 0 (fun _ => 1/2) (fun _ => 1/2) = [400] ∧
    AllocateBandwidth 0 1 400 1200 0 (fun _ => 1/2) (fun _ => 1/2) ≠ [] := by
  have h : AllocateBandwidth 0 1 400 1200 0 (fun _ => 1/2) (fun _ => 1/2) = [400] := by
    norm_num [AllocateBandwidth, allocFirstPass, firstPassAlloc, allocWeight, Clamp64,
      truncQ, List.range_succ]
  exact ⟨h, by rw [h]; simp⟩

/-- Claim C3 (amended): a zero number of selected workers yields an empty
allocation set and no error; but a non-positive target with a positive
number of selected workers still yields one allocation per worker (each
clamped into the per-worker bounds), not an empty set. -/
theorem allocate_degenerate_spec (t : ℚ) (n : ℕ) (mi ma : ℤ) (rf : ℚ) (w v : ℕ → ℚ) :
    AllocateBandwidth t 0 mi ma rf w v = [] ∧
    (AllocateBandwidth t n mi ma rf w v).length = n :=
  ⟨rfl, AllocateBandwidth_length t n mi ma rf w v⟩

theorem sum_truncQ_bounds (c : ℚ) :
    ∀ l : List ℤ, (∀ a ∈ l, (0:ℚ) ≤ (a:ℚ) * c) →
      ((l.map (fun a : ℤ => truncQ ((a:ℚ) * c))).sum : ℚ) ≤ (l.sum : ℚ) * c ∧
      (l.sum : ℚ) * c - l.length ≤ ((l.map (fun a : ℤ => truncQ ((a:ℚ) * c))).sum : ℚ)
  | [], _ => by simp
  | a :: l, h => by
    have hx : (0:ℚ) ≤ (a:ℚ) * c := h a (List.mem_cons_self a l)
    have ih := sum_truncQ_bounds c l (fun b hb => h b (List.mem_cons_of_mem a hb))
    have h1 := truncQ_le ((a:ℚ) * c) hx
    have h2 := lt_truncQ_add_one ((a:ℚ) * c) hx
    simp only [List.map_cons, List.sum_cons, List.length_cons]
    push_cast
    push_cast at ih
    constructor
    · nlinarith [ih.1]
    · nlinarith [ih.2]

/-- Claim C4 (amended): when at least one worker is selected, the clamp
bounds are ordered and nonnegative, the target is nonnegative, the
first-pass allocation sum is positive, and the final clamp of the
renormalization step does not bind (every rescaled value already lies
within the bounds), the returned total lies within numAgents units below
the target: target minus numAgents is at most the sum, and the sum is at
most the target. Without the no-binding condition the sum can miss the
target by far more than any rounding tolerance, see the counterexample. -/
theorem allocate_sum_near_target (t : ℚ) (n : ℕ) (mi ma : ℤ) (rf : ℚ) (w v : ℕ → ℚ)
    (hn : 0 < n) (hmi : 0 ≤ mi) (hmm : mi ≤ ma) (ht : 0 ≤ t)
    (hS : 0 < (allocFirstPass t n mi ma rf w v).sum)
    (hnc : ∀ a ∈ allocFirstPass t n mi ma rf w v,
        mi ≤ truncQ ((a:ℚ) * (t / ((allocFirstPass t n mi ma rf w v).sum : ℚ))) ∧
        truncQ ((a:ℚ) * (t / ((allocFirstPass t n mi ma rf w v).sum : ℚ))) ≤ ma) :
    t - n ≤ ((AllocateBandwidth t n mi ma rf w v).sum : ℚ) ∧
    ((AllocateBandwidth t n mi ma rf w v).sum : ℚ) ≤ t := by
  have hn0 : ¬ (n = 0) := Nat.pos_iff_ne_zero.mp hn
  have hb := allocFirstPass_mem_bounds t n mi ma rf w v hmm
  have hlen := allocFirstPass_length t n mi ma rf w v
  unfold AllocateBandwidth
  rw [if_neg hn0]
  set L1 := allocFirstPass t n mi ma rf w v with hL1def
  set c : ℚ := t / (L1.sum : ℚ) with hcdef
  have hSne : ((L1.sum : ℚ)) ≠ 0 := by
    have : (0:ℚ) < (L1.sum : ℚ) := by exact_mod_cast hS
    exact ne_of_gt this
  have hcnn : 0 ≤ c := by
    rw [hcdef]
    apply div_nonneg ht
    exact_mod_cast hS.le
  have hpos : ∀ a ∈ L1, (0:ℚ) ≤ (a:ℚ) * c := by
    intro a ha
    apply mul_nonneg _ hcnn
    exact_mod_cast le_trans hmi (hb a ha).1
  have hSc : (L1.sum : ℚ) * c = t := by
    rw [hcdef, mul_comm]
    exact div_mul_cancel₀ t hSne
  by_cases hcond : L1.sum ≠ truncQ t ∧ 0 < L1.sum
  · rw [if_pos hcond]
    have hmapeq : L1.map (fun a : ℤ => Clamp64 (truncQ ((a:ℚ) * c)) mi ma)
        = L1.map (fun a : ℤ => truncQ ((a:ℚ) * c)) :=
      List.map_congr_left (fun a ha => Clamp64_eq_self _ _ _ (hnc a ha).1 (hnc a ha).2)
    rw [hmapeq]
    have hsum := sum_truncQ_bounds c L1 hpos
    rw [hlen] at hsum
    constructor
    · linarith [hsum.2, hSc.ge]
    · linarith [hsum.1, hSc.le]
  · rw [if_neg hcond]
    have heq : L1.sum = truncQ t := by
      by_contra hne
      exact hcond ⟨hne, hS⟩
    rw [heq, truncQ_of_nonneg t ht]
    have hf1 : (↑⌊t⌋ : ℚ) ≤ t := Int.floor_le t
    have hf2 : t - 1 < (↑⌊t⌋ : ℚ) := by
      have := Int.sub_one_lt_floor t
      linarith
    have hn1 : (1:ℚ) ≤ (n : ℚ) := by exact_mod_cast hn
    constructor
    · linarith
    · exact hf1

/-- Claim C4 counterexample: target 150 with two workers, clamp bounds 0 to
100 (feasible range 0 to 200 contains 150), randomness factor 1, weight
draws one half, variation draws 0 and one half. The first pass yields
allocations 0 and 75, and the renormalization step rescales by 2 and then
clamps the second worker at 100, so the returned sum is 100: it misses the
in-range target 150 by 50, far beyond any rounding tolerance (each of the
two int64 truncations loses less than one unit). -/
theorem allocate_sum_counterexample :
    2 * (0:ℤ) ≤ 150 ∧ (150:ℤ) ≤ 2 * 100 ∧
    AllocateBandwidth 150 2 0 100 1 (fun _ => 1/2) (fun i => if i = 0 then 0 else 1/2)
      = [0, 100] ∧
    (AllocateBandwidth 150 2 0 100 1 (fun _ => 1/2) (fun i => if i = 0 then 0 else 1/2)).sum
      = 100 := by
  have h : AllocateBandwidth 150 2 0 100 1 (fun _ => 1/2) (fun i => if i = 0 then 0 else 1/2)
      = [0, 100] := by
    norm_num [AllocateBandwidth, allocFirstPass, firstPassAlloc, allocWeight, Clamp64,
      truncQ, List.range_succ]
  refine ⟨by norm_num, by norm_num, h, by rw [h]; norm_num⟩

/-- Witness for allocate_sum_near_target at a concrete input where no clamp
binds: target 150, two workers, bounds 0 to 100, no randomness. -/
theorem allocate_sum_near_target_witness :
    (150:ℚ) - 2 ≤ ((AllocateBandwidth 150 2 0 100 0 (fun _ => 1/2) (fun _ => 1/2)).sum : ℚ) ∧
    ((AllocateBandwidth 150 2 0 100 0 (fun _ => 1/2) (fun _ => 1/2)).sum : ℚ) ≤ 150 := by
  have hL1 : allocFirstPass 150 2 0 100 0 (fun _ => 1/2) (fun _ => 1/2) = [75, 75] := by
    norm_num [allocFirstPass, firstPassAlloc, allocWeight, Clamp64, truncQ, List.range_succ]
  refine allocate_sum_near_target 150 2 0 100 0 (fun _ => 1/2) (fun _ => 1/2)
    (by norm_num) (by norm_num) (by norm_num) (by norm_num) ?_ ?_
  · rw [hL1]; norm_num
  · rw [hL1]
    intro a ha
    have : a = 75 := by
      simp only [List.mem_cons, List.not_mem_nil, or_false] at ha
      rcases ha with h | h <;> exact h
    subst this
    norm_num [truncQ]

/-- CalculateStagger from calculator.go: staggered delays for count items
over totalDuration, each item delayed by its index times the base delay
plus a jitter of up to a quarter base delay either way, floored at zero.
The stream jDraw gives the rand.Float64 draw for each index. -/
def CalculateStagger (count : ℕ) (totalDuration : ℚ) (jDraw : ℕ → ℚ) : List ℚ :=
  if count = 0 then []
  else
    (List.range count).map (fun i : ℕ =>
      let delay := (i : ℚ) * (totalDuration / count) +
        (totalDuration / count) * (1/4) * (jDraw i * 2 - 1)
      if delay < 0 then 0 else delay)

/-- Claim C10: for positive count and positive total duration, and jitter
draws in the unit interval as rand.Float64 produces, CalculateStagger
returns exactly count delays, each nonnegative and strictly below the
total duration. -/
theorem calculateStagger_spec (count : ℕ) (T : ℚ) (j : ℕ → ℚ)
    (hc : 0 < count) (hT : 0 < T) (hj : ∀ i < count, 0 ≤ j i ∧ j i < 1) :
    (CalculateStagger count T j).length = count ∧
    ∀ d ∈ CalculateStagger count T j, 0 ≤ d ∧ d < T := by
  have hcq : (0:ℚ) < (count : ℚ) := by exact_mod_cast hc
  have hbpos : 0 < T / (count : ℚ) := div_pos hT hcq
  have hTb : (count : ℚ) * (T / (count : ℚ)) = T := by field_simp
  unfold CalculateStagger
  rw [if_neg (Nat.pos_iff_ne_zero.mp hc)]
  constructor
  · simp
  · intro d hd
    obtain ⟨i, hi, rfl⟩ := List.mem_map.mp hd
    have hiq : (i : ℚ) ≤ (count : ℚ) - 1 := by
      have : (i : ℚ) + 1 ≤ (count : ℚ) := by exact_mod_cast List.mem_range.mp hi
      linarith
    obtain ⟨hj0, hj1⟩ := hj i (List.mem_range.mp hi)
    dsimp only
    split
    · exact ⟨le_refl 0, hT⟩
    · rename_i hneg
      push_neg at hneg
      refine ⟨hneg, ?_⟩
      have h1 : (i : ℚ) * (T / (count : ℚ)) ≤ ((count : ℚ) - 1) * (T / (count : ℚ)) :=
        mul_le_mul_of_nonneg_right hiq hbpos.le
      have h2 : (T / (count : ℚ)) * (1/4) * (j i * 2 - 1) < (T / (count : ℚ)) * (1/4) := by
        nlinarith
      nlinarith

/-- Witness for calculateStagger_spec at a concrete input. -/
theorem calculateStagger_spec_witness :
    (CalculateStagger 2 10 (fun _ => 1/2)).length = 2 ∧
    ∀ d ∈ CalculateStagger 2 10 (fun _ => 1/2), 0 ≤ d ∧ d < 10 :=
  calculateStagger_spec 2 10 (fun _ => 1/2) (by norm_num) (by norm_num)
    (by intro i _; norm_num)

/-- The cumulative-weight walk of WeightedRandomSelection: the index of
the first element whose running cumulative weight reaches the draw r, if
any, starting from accumulated weight acc. -/
def cumulPick (r : ℚ) : List ℚ → ℚ → Option ℕ
  | [], _ => none
  | w :: ws, acc =>
    if r ≤ acc + w then some 0
    else (cumulPick r ws (acc + w)).map (· + 1)

theorem cumulPick_lt (r : ℚ) : ∀ (ws : List ℚ) (acc : ℚ) (j : ℕ),
    cumulPick r ws acc = some j → j < ws.length
  | [], _, j => by simp [cumulPick]
  | w :: ws, acc, j => by
    simp only [cumulPick]
    split
    · intro h
      cases h
      simp
    · intro h
      obtain ⟨j2, hj2, rfl⟩ := Option.map_eq_some'.mp h
      have := cumulPick_lt r ws (acc + w) j2 hj2
      simp only [List.length_cons]
      omega

/-- One selection round plus recursion: the loop body of
WeightedRandomSelection. When all remaining weights sum to zero the index
is a uniform draw over the remaining candidates, otherwise it is the
cumulative walk with a scaled rand.Float64 draw, falling back to the last
candidate. The chosen candidate is removed before recursing. Streams
uDraw and zDraw give the rand.Float64 and rand.Intn draws per round. -/
def selectLoop (uDraw : ℕ → ℚ) (zDraw : ℕ → ℕ) :
    ℕ → List ℕ → List ℚ → List ℕ
  | 0, _, _ => []
  | k + 1, available, availableWeights =>
    let idx := if availableWeights.sum = 0 then zDraw k % available.length
      else (cumulPick (uDraw k * availableWeights.sum) availableWeights 0).getD
        (available.length - 1)
    available.getD idx 0 ::
      selectLoop uDraw zDraw k (available.eraseIdx idx) (availableWeights.eraseIdx idx)

/-- WeightedRandomSelection from calculator.go: when count reaches the
number of weights it returns all indices, otherwise count rounds of
weighted sampling without replacement over the index list. -/
def WeightedRandomSelection (count : ℕ) (weights : List ℚ)
    (uDraw : ℕ → ℚ) (zDraw : ℕ → ℕ) : List ℕ :=
  if weights.length ≤ count then List.range weights.length
  else selectLoop uDraw zDraw count (List.range weights.length) weights

theorem getElem_not_mem_eraseIdx (l : List ℕ) (i : ℕ) (h : i < l.length) (hnd : l.Nodup) :
    l[i] ∉ l.eraseIdx i := by
  rw [List.eraseIdx_eq_take_drop_succ]
  intro hmem
  have hdecomp : l.take i ++ l[i] :: l.drop (i + 1) = l := by
    rw [List.getElem_cons_drop]
    exact List.take_append_drop i l
  rw [← hdecomp] at hnd
  rw [List.nodup_append] at hnd
  obtain ⟨h1, h2, hdisj⟩ := hnd
  rcases List.mem_append.mp hmem with hm | hm
  · exact hdisj hm (List.mem_cons_self _ _)
  · exact (List.nodup_cons.mp h2).1 hm

theorem selectLoop_spec (u : ℕ → ℚ) (z : ℕ → ℕ) :
    ∀ (k : ℕ) (avail : List ℕ) (aws : List ℚ),
      avail.Nodup → aws.length = avail.length → k ≤ avail.length →
      (selectLoop u z k avail aws).length = k ∧
      (selectLoop u z k avail aws).Nodup ∧
      ∀ x ∈ selectLoop u z k avail aws, x ∈ avail
  | 0, avail, aws => by
    intro _ _ _
    refine ⟨rfl, List.nodup_nil, ?_⟩
    intro x hx
    simp [selectLoop] at hx
  | k + 1, avail, aws => by
    intro hnd hlen hk
    have hlenpos : 0 < avail.length := by omega
    simp only [selectLoop]
    set idx := if aws.sum = 0 then z k % avail.length
      else (cumulPick (u k * aws.sum) aws 0).getD (avail.length - 1) with hidxdef
    have hidx : idx < avail.length := by
      rw [hidxdef]
      split
      · exact Nat.mod_lt _ hlenpos
      · cases hcp : cumulPick (u k * aws.sum) aws 0 with
        | none => simp only [Option.getD_none]; omega
        | some jj =>
          have := cumulPick_lt (u k * aws.sum) aws 0 jj hcp
          simp only [Option.getD_some]
          omega
    have hidxw : idx < aws.length := by omega
    have hgd : avail.getD idx 0 = avail[idx] := List.getD_eq_getElem avail 0 hidx
    have ih := selectLoop_spec u z k (avail.eraseIdx idx) (aws.eraseIdx idx)
      (hnd.eraseIdx idx)
      (by rw [List.length_eraseIdx_of_lt hidx, List.length_eraseIdx_of_lt hidxw, hlen])
      (by rw [List.length_eraseIdx_of_lt hidx]; omega)
    refine ⟨?_, ?_, ?_⟩
    · simp [ih.1]
    · rw [List.nodup_cons]
      refine ⟨?_, ih.2.1⟩
      intro hmem
      have hx := ih.2.2 _ hmem
      rw [hgd] at hx
      exact getElem_not_mem_eraseIdx avail idx hidx hnd hx
    · intro x hx
      rcases List.mem_cons.mp hx with h | h
      · subst h
        rw [hgd]
        exact List.getElem_mem hidx
      · exact List.mem_of_mem_eraseIdx (ih.2.2 x h)

/-- Claim C8: WeightedRandomSelection returns exactly the minimum of count
and the number of candidates many indices, pairwise distinct, each a valid
index into the candidate list; and when count is at least the number of
candidates it returns all candidate indices. -/
theorem weightedRandomSelection_spec (count : ℕ) (weights : List ℚ)
    (u : ℕ → ℚ) (z : ℕ → ℕ) :
    (WeightedRandomSelection count weights u z).length = min count weights.length ∧
    (WeightedRandomSelection count weights u z).Nodup ∧
    (∀ x ∈ WeightedRandomSelection count weights u z, x < weights.length) ∧
    (weights.length ≤ count →
      WeightedRandomSelection count weights u z = List.range weights.length) := by
  unfold WeightedRandomSelection
  split
  · rename_i h
    refine ⟨?_, List.nodup_range _, ?_, fun _ => rfl⟩
    · simp [Nat.min_eq_right h]
    · intro x hx
      exact List.mem_range.mp hx
  · rename_i h
    push_neg at h
    have hs := selectLoop_spec u z count (List.range weights.length) weights
      (List.nodup_range _) (by simp) (by simp; omega)
    refine ⟨?_, hs.2.1, ?_, ?_⟩
    · rw [hs.1, Nat.min_eq_left h.le]
    · intro x hx
      exact List.mem_range.mp (hs.2.2 x hx)
    · intro hle
      omega

/-- Truncation toward zero on the reals: the meaning of the Go conversion
int(f) for a float64 f. -/
noncomputable def truncR (x : ℝ) : ℤ := if 0 ≤ x then ⌊x⌋ else ⌈x⌉

/-- CalculateConcurrency from calculator.go. The three waves divide the
elapsed seconds by 300, 180 and 420 and take the sine; the randomness
factor parameter is accepted but never used by the function body; the
perturbation draw dPerturb models the rand.Intn 3 draw. -/
noncomputable def CalculateConcurrency (elapsedSeconds : ℝ) (lo hi : ℤ)
    (randomness : ℝ) (dPerturb : ℕ) : ℤ :=
  let wave1 := Real.sin (elapsedSeconds / 300)
  let wave2 := Real.sin (elapsedSeconds / 180)
  let wave3 := Real.sin (elapsedSeconds / 420)
  let combined := (wave1 + wave2 * 0.5 + wave3 * 0.3) / 1.8
  let normalized := (combined + 1) / 2
  let concurrent := lo + truncR (((hi - lo : ℤ) : ℝ) * normalized)
  let randomAdjust := ((dPerturb % 3 : ℕ) : ℤ) - 1
  Clamp (concurrent + randomAdjust) lo hi

/-- The wave function as claim C6 words it: three sinusoids of periods
300, 180 and 420 seconds (a sinusoid of period T seconds at time t is
the sine of 2 pi t / T), weights 1.0, 0.5, 0.3 normalized by 1.8, the
signal mapped to the unit interval, interpolated into the range, a
perturbation from the minus-one to one integer range added, and the
result clamped. -/
noncomputable def claimWavePeriods (elapsedSeconds : ℝ) (lo hi : ℤ)
    (randomness : ℝ) (dPerturb : ℕ) : ℤ :=
  let wave1 := Real.sin (2 * Real.pi * elapsedSeconds / 300)
  let wave2 := Real.sin (2 * Real.pi * elapsedSeconds / 180)
  let wave3 := Real.sin (2 * Real.pi * elapsedSeconds / 420)
  let combined := (wave1 + wave2 * 0.5 + wave3 * 0.3) / 1.8
  let normalized := (combined + 1) / 2
  let concurrent := lo + truncR (((hi - lo : ℤ) : ℝ) * normalized)
  let randomAdjust := ((dPerturb % 3 : ℕ) : ℤ) - 1
  Clamp (concurrent + randomAdjust) lo hi

/-- The wave function as the amended claim words it: three sinusoids of
angular frequencies 1/300, 1/180 and 1/420 radians per second (periods
600 pi, 360 pi and 840 pi seconds), weights 1.0, 0.5 and 0.3 normalized
by 1.8, mapped to the unit interval, linearly interpolated into the
range with truncation, perturbed by a draw from the minus-one to one
integer range, and clamped into the range. -/
noncomputable def amendedWaveReference (elapsedSeconds : ℝ) (lo hi : ℤ)
    (randomness : ℝ) (dPerturb : ℕ) : ℤ :=
  let wave1 := Real.sin (elapsedSeconds * (1 / 300))
  let wave2 := Real.sin (elapsedSeconds * (1 / 180))
  let wave3 := Real.sin (elapsedSeconds * (1 / 420))
  let combined := (wave1 * 1 + wave2 * (1 / 2) + wave3 * (3 / 10)) / (9 / 5)
  let normalized := (combined + 1) / 2
  let interpolated := lo + truncR (((hi - lo : ℤ) : ℝ) * normalized)
  let perturbed := interpolated + (((dPerturb % 3 : ℕ) : ℤ) - 1)
  Clamp perturbed lo hi

/-- Claim C6 (amended): CalculateConcurrency agrees, at every input, with
the reference wave built from sinusoids of angular frequencies 1/300,
1/180 and 1/420 radians per second rather than periods of 300, 180 and
420 seconds; everything else in the claim (weights, normalization,
interpolation, perturbation, clamping) is as stated. -/
theorem calculateConcurrency_matches_amended_reference (t : ℝ) (lo hi : ℤ)
    (r : ℝ) (d : ℕ) :
    CalculateConcurrency t lo hi r d = amendedWaveReference t lo hi r d := by
  have h1 : t / 300 = t * (1 / 300) := by ring
  have h2 : t / 180 = t * (1 / 180) := by ring
  have h3 : t / 420 = t * (1 / 420) := by ring
  have hc : (Real.sin (t * (1 / 300)) + Real.sin (t * (1 / 180)) * 0.5 +
        Real.sin (t * (1 / 420)) * 0.3) / 1.8
      = (Real.sin (t * (1 / 300)) * 1 + Real.sin (t * (1 / 180)) * (1 / 2) +
        Real.sin (t * (1 / 420)) * (3 / 10)) / (9 / 5) := by
    norm_num
  unfold CalculateConcurrency amendedWaveReference
  dsimp only
  rw [h1, h2, h3, hc]

theorem truncR_interp_eq_one (x : ℝ) (h0 : 0 < x) (h1 : x < 1) :
    truncR ((((2:ℤ) - 0 : ℤ) : ℝ) * ((x + 1) / 2)) = 1 := by
  have h2c : (((2:ℤ) - 0 : ℤ) : ℝ) * ((x + 1) / 2) = x + 1 := by push_cast; ring
  rw [h2c]
  unfold truncR
  rw [if_pos (by linarith)]
  rw [Int.floor_eq_iff]
  constructor
  · push_cast; linarith
  · push_cast; linarith

theorem truncR_interp_eq_zero (x : ℝ) (h0 : -1 < x) (h1 : x < 0) :
    truncR ((((2:ℤ) - 0 : ℤ) : ℝ) * ((x + 1) / 2)) = 0 := by
  have h2c : (((2:ℤ) - 0 : ℤ) : ℝ) * ((x + 1) / 2) = x + 1 := by push_cast; ring
  rw [h2c]
  unfold truncR
  rw [if_pos (by linarith)]
  rw [Int.floor_eq_iff]
  constructor
  · push_cast; linarith
  · push_cast; linarith

/-- Claim C6 counterexample: at elapsed time 150 seconds, with worker range
0 to 2 and perturbation draw 1 (a zero adjustment), the code's function
returns 1 while the wave built from sinusoids of true periods 300, 180 and
420 seconds, as the claim words it, returns 0; so CalculateConcurrency does
not equal the claimed reference definition. -/
theorem calculateConcurrency_period_counterexample :
    CalculateConcurrency 150 0 2 (1/2) 1 = 1 ∧
    claimWavePeriods 150 0 2 (1/2) 1 = 0 ∧
    CalculateConcurrency 150 0 2 (1/2) 1 ≠ claimWavePeriods 150 0 2 (1/2) 1 := by
  have hpi := Real.pi_pos
  have hpi3 := Real.pi_gt_three
  have hcode : CalculateConcurrency 150 0 2 (1/2) 1 = 1 := by
    have ha1 : (150:ℝ) / 300 = 1/2 := by norm_num
    have ha2 : (150:ℝ) / 180 = 5/6 := by norm_num
    have ha3 : (150:ℝ) / 420 = 5/14 := by norm_num
    have hs1pos : 0 < Real.sin (1/2) :=
      Real.sin_pos_of_pos_of_lt_pi (by norm_num) (by linarith)
    have hs2pos : 0 < Real.sin (5/6) :=
      Real.sin_pos_of_pos_of_lt_pi (by norm_num) (by linarith)
    have hs3pos : 0 < Real.sin (5/14) :=
      Real.sin_pos_of_pos_of_lt_pi (by norm_num) (by linarith)
    have hs1lt : Real.sin (1/2) < 1/2 := Real.sin_lt (by norm_num)
    have hs2le : Real.sin (5/6) ≤ 1 := Real.sin_le_one _
    have hs3le : Real.sin (5/14) ≤ 1 := Real.sin_le_one _
    have hc0 : 0 < (Real.sin (1/2) + Real.sin (5/6) * 0.5 + Real.sin (5/14) * 0.3) / 1.8 := by
      apply div_pos _ (by norm_num)
      nlinarith
    have hc1 : (Real.sin (1/2) + Real.sin (5/6) * 0.5 + Real.sin (5/14) * 0.3) / 1.8 < 1 := by
      rw [div_lt_one (by norm_num)]
      nlinarith
    unfold CalculateConcurrency
    dsimp only
    rw [ha1, ha2, ha3]
    rw [truncR_interp_eq_one _ hc0 hc1]
    decide
  have hspec : claimWavePeriods 150 0 2 (1/2) 1 = 0 := by
    have hb1 : 2 * Real.pi * (150:ℝ) / 300 = Real.pi := by ring
    have hb2 : 2 * Real.pi * (150:ℝ) / 180 = 2 * Real.pi - Real.pi / 3 := by ring
    have hb3 : 2 * Real.pi * (150:ℝ) / 420 = 5 * Real.pi / 7 := by ring
    have hs3pos : 0 < Real.sin (5 * Real.pi / 7) :=
      Real.sin_pos_of_pos_of_lt_pi (by linarith) (by linarith)
    have hs3le : Real.sin (5 * Real.pi / 7) ≤ 1 := Real.sin_le_one _
    have hsq3 := Real.sq_sqrt (show (0:ℝ) ≤ 3 by norm_num)
    have hsqnn := Real.sqrt_nonneg 3
    have hsqlt : Real.sqrt 3 < 2 := by nlinarith
    have hsqgt : (6:ℝ)/5 < Real.sqrt 3 := by nlinarith
    have hc1 : (0 + -(Real.sqrt 3 / 2) * 0.5 + Real.sin (5 * Real.pi / 7) * 0.3) / 1.8 < 0 := by
      apply div_neg_of_neg_of_pos _ (by norm_num)
      nlinarith
    have hc0 : (-1:ℝ) <
        (0 + -(Real.sqrt 3 / 2) * 0.5 + Real.sin (5 * Real.pi / 7) * 0.3) / 1.8 := by
      rw [lt_div_iff₀ (by norm_num : (0:ℝ) < 1.8)]
      nlinarith
    unfold claimWavePeriods
    dsimp only
    rw [hb1, hb2, hb3]
    rw [Real.sin_pi, Real.sin_two_pi_sub, Real.sin_pi_div_three]
    rw [truncR_interp_eq_zero _ hc0 hc1]
    decide
  refine ⟨hcode, hspec, ?_⟩
  rw [hcode, hspec]
  decide

end Bandwidth

namespace Controller

/-- AgentConfig from the controller configuration: the statically
configured identity, declared capacity and region of a worker. -/
structure AgentConfig where
  id : String
  maxBandwidth : ℤ
  region : String
deriving DecidableEq

/-- AgentAllocation from the scheduler: one worker's bandwidth allocation.
Times are modelled as rationals. -/
structure AgentAllocation where
  agentID : String
  allocatedBW : ℤ
  startTime : ℚ
  plannedDuration : ℚ
  currentCommand : String
  url : String
deriving DecidableEq

/-- AgentStatus from the scheduler: one worker's registry entry. -/
structure AgentStatus where
  agentID : String
  lastUsed : ℚ
  totalRuntime : ℚ
  useCount : ℕ
  region : String
deriving DecidableEq

/-- SchedulerState from the scheduler. The Go map of active allocations is
modelled as an association list keyed by agent id. -/
structure SchedulerState where
  phase : String
  activeAgents : List (String × AgentAllocation)
  nextRotation : ℚ
  targetTotalBW : ℚ
  currentTotalBW : ℚ
  lastRotation : ℚ
  rotationCount : ℕ
deriving DecidableEq

/-- Key lookup in an association list: the Go map read. -/
def lookupKey {α : Type} (l : List (String × α)) (k : String) : Option α :=
  match l with
  | [] => none
  | p :: rest => if p.1 = k then some p.2 else lookupKey rest k

/-- OnAgentDisconnect from the scheduler: under the state lock, deletes
the agent from the active-allocation map. It touches nothing else; in
particular the Go method never reads or writes the agent status registry,
which is threaded through here unchanged so the frame property can name
it. -/
def OnAgentDisconnect (s : SchedulerState) (registry : List (String × AgentStatus))
    (agentID : String) : SchedulerState × List (String × AgentStatus) :=
  ({ s with activeAgents := s.activeAgents.filter (fun p => p.1 ≠ agentID) }, registry)

theorem lookupKey_cons {α : Type} (p : String × α) (rest : List (String × α)) (k : String) :
    lookupKey (p :: rest) k = if p.1 = k then some p.2 else lookupKey rest k := rfl

theorem lookupKey_filter_ne {α : Type} (l : List (String × α)) (id : String) :
    lookupKey (l.filter (fun p => p.1 ≠ id)) id = none := by
  induction l with
  | nil => rfl
  | cons p rest ih =>
    rw [List.filter_cons]
    by_cases h : p.1 = id
    · rw [if_neg (by simp [h])]
      exact ih
    · rw [if_pos (by simp [h]), lookupKey_cons, if_neg h]
      exact ih

theorem lookupKey_filter_other {α : Type} (l : List (String × α)) (id k : String)
    (hk : k ≠ id) : lookupKey (l.filter (fun p => p.1 ≠ id)) k = lookupKey l k := by
  induction l with
  | nil => rfl
  | cons p rest ih =>
    rw [List.filter_cons]
    by_cases h : p.1 = id
    · rw [if_neg (by simp [h]), lookupKey_cons,
        if_neg (show ¬ (p.1 = k) by rw [h]; intro h2; exact hk h2.symm)]
      exact ih
    · rw [if_pos (by simp [h]), lookupKey_cons, lookupKey_cons]
      by_cases h2 : p.1 = k
      · rw [if_pos h2, if_pos h2]
      · rw [if_neg h2, if_neg h2]
        exact ih

/-- Claim C9: the disconnect notification removes exactly that agent's
entry from the active-allocation map and changes nothing else in the
scheduler state: the registry, every other agent's allocation, the phase,
the rotation counter, the rotation deadline and times, and the throughput
fields are unchanged. -/
theorem onAgentDisconnect_spec (s : SchedulerState)
    (registry : List (String × AgentStatus)) (id : String) :
    lookupKey (OnAgentDisconnect s registry id).1.activeAgents id = none ∧
    (∀ k, k ≠ id → lookupKey (OnAgentDisconnect s registry id).1.activeAgents k
      = lookupKey s.activeAgents k) ∧
    (OnAgentDisconnect s registry id).2 = registry ∧
    (OnAgentDisconnect s registry id).1.phase = s.phase ∧
    (OnAgentDisconnect s registry id).1.nextRotation = s.nextRotation ∧
    (OnAgentDisconnect s registry id).1.lastRotation = s.lastRotation ∧
    (OnAgentDisconnect s registry id).1.targetTotalBW = s.targetTotalBW ∧
    (OnAgentDisconnect s registry id).1.currentTotalBW = s.currentTotalBW ∧
    (OnAgentDisconnect s registry id).1.rotationCount = s.rotationCount :=
  ⟨lookupKey_filter_ne s.activeAgents id,
   fun k hk => lookupKey_filter_other s.activeAgents id k hk,
   rfl, rfl, rfl, rfl, rfl, rfl, rfl⟩

/-- A concrete allocation record used by the concrete instances below. -/
def allocA : AgentAllocation :=
  { agentID := "a", allocatedBW := 500, startTime := 10, plannedDuration := 0,
    currentCommand := "c1", url := "u1" }

/-- A second concrete allocation record. -/
def allocB : AgentAllocation :=
  { agentID := "b", allocatedBW := 300, startTime := 12, plannedDuration := 0,
    currentCommand := "c2", url := "u2" }

/-- A concrete scheduler state with two active agents. -/
def stateEx : SchedulerState :=
  { phase := "stable", activeAgents := [("a", allocA), ("b", allocB)],
    nextRotation := 200, targetTotalBW := 600, currentTotalBW := 0,
    lastRotation := 10, rotationCount := 1 }

/-- A concrete registry with two entries. -/
def registryEx : List (String × AgentStatus) :=
  [("a", { agentID := "a", lastUsed := 10, totalRuntime := 0, useCount := 2, region := "us" }),
   ("b", { agentID := "b", lastUsed := 12, totalRuntime := 0, useCount := 1, region := "eu" })]

/-- Witness for onAgentDisconnect_spec at a concrete state. -/
theorem onAgentDisconnect_spec_witness :
    lookupKey (OnAgentDisconnect stateEx registryEx "a").1.activeAgents "a" = none ∧
    (∀ k, k ≠ "a" → lookupKey (OnAgentDisconnect stateEx registryEx "a").1.activeAgents k
      = lookupKey stateEx.activeAgents k) ∧
    (OnAgentDisconnect stateEx registryEx "a").2 = registryEx ∧
    (OnAgentDisconnect stateEx registryEx "a").1.phase = stateEx.phase ∧
    (OnAgentDisconnect stateEx registryEx "a").1.nextRotation = stateEx.nextRotation ∧
    (OnAgentDisconnect stateEx registryEx "a").1.lastRotation = stateEx.lastRotation ∧
    (OnAgentDisconnect stateEx registryEx "a").1.targetTotalBW = stateEx.targetTotalBW ∧
    (OnAgentDisconnect stateEx registryEx "a").1.currentTotalBW = stateEx.currentTotalBW ∧
    (OnAgentDisconnect stateEx registryEx "a").1.rotationCount = stateEx.rotationCount :=
  onAgentDisconnect_spec stateEx registryEx "a"

/-- The two sequential caps at the top of boostAgentBandwidth: raise the
requested boost to at least 100, then cap it at 500. -/
def boostCap (additionalBW : ℤ) : ℤ :=
  let b1 := if additionalBW < 100 then 100 else additionalBW
  if b1 > 500 then 500 else b1

theorem boostCap_eq_clamp (v : ℤ) : boostCap v = Bandwidth.Clamp64 v 100 500 := by
  unfold boostCap Bandwidth.Clamp64
  dsimp only
  split_ifs <;> omega

/-- One agent's path through adjustBandwidthIfNeeded and
boostAgentBandwidth: given the scheduler phase, the agent's allocated
bandwidth, its observed throughput, the configured tolerance and the
time remaining until the next rotation, this is the bandwidth of the
boost command sent to the agent, or none. Following the code: nothing
happens outside the stable phase; the agent must observe less than
allocation times one minus tolerance; the deficit percentage must exceed
20; the truncated deficit is capped into the 100 to 500 range; and the
send is dropped when less than 30 seconds remain before rotation. -/
def boostDecision (phase : String) (allocatedBW : ℤ) (observed : ℚ)
    (tolerance : ℚ) (timeToRotation : ℚ) : Option ℤ :=
  if phase ≠ "stable" then none
  else if observed < (allocatedBW : ℚ) * (1 - tolerance) then
    if ((allocatedBW : ℚ) - observed) / (allocatedBW : ℚ) * 100 > 20 then
      if timeToRotation < 30 then none
      else some (boostCap (Bandwidth.truncQ ((allocatedBW : ℚ) - observed)))
    else none
  else none

/-- The adaptive loop adjustBandwidthIfNeeded over the whole active map:
for each active agent that has an entry in the per-agent metrics
breakdown, the boost decision; the result is the list of boost commands
issued, as agent id and bandwidth pairs. -/
def adjustBandwidthIfNeeded (phase : String) (active : List (String × AgentAllocation))
    (agentBreakdown : List (String × ℚ)) (tolerance : ℚ) (timeToRotation : ℚ) :
    List (String × ℤ) :=
  active.filterMap (fun p =>
    match lookupKey agentBreakdown p.1 with
    | none => none
    | some obs =>
      (boostDecision phase p.2.allocatedBW obs tolerance timeToRotation).map
        (fun b => (p.1, b)))

theorem boostDecision_eq_some (phase : String) (a : ℤ) (obs tol ttr : ℚ) (b : ℤ)
    (ha : 0 < a) :
    boostDecision phase a obs tol ttr = some b ↔
      phase = "stable" ∧ obs < (a : ℚ) * (1 - tol) ∧
      (a : ℚ) - obs > (a : ℚ) * (20 / 100) ∧ 30 ≤ ttr ∧
      b = Bandwidth.Clamp64 (Bandwidth.truncQ ((a : ℚ) - obs)) 100 500 := by
  have haq : (0:ℚ) < (a : ℚ) := by exact_mod_cast ha
  have hperc : (20 < ((a : ℚ) - obs) / (a : ℚ) * 100) ↔
      ((a : ℚ) * (20 / 100) < (a : ℚ) - obs) := by
    rw [show ((a : ℚ) - obs) / (a : ℚ) * 100 = ((a : ℚ) - obs) * 100 / (a : ℚ) by ring]
    rw [lt_div_iff₀ haq]
    constructor <;> intro h <;> nlinarith
  unfold boostDecision
  by_cases hph : phase = "stable"
  · rw [if_neg (by simp [hph])]
    by_cases hobs : obs < (a : ℚ) * (1 - tol)
    · rw [if_pos hobs]
      by_cases hp : ((a : ℚ) - obs) / (a : ℚ) * 100 > 20
      · rw [if_pos hp]
        by_cases httr : ttr < 30
        · rw [if_pos httr]
          constructor
          · intro h
            cases h
          · rintro ⟨-, -, -, h30, -⟩
            linarith
        · rw [if_neg httr]
          push_neg at httr
          constructor
          · intro h
            injection h with hb
            exact ⟨hph, hobs, hperc.mp hp, httr, by rw [← hb, boostCap_eq_clamp]⟩
          · rintro ⟨-, -, -, -, rfl⟩
            rw [boostCap_eq_clamp]
      · rw [if_neg hp]
        constructor
        · intro h
          cases h
        · rintro ⟨-, -, hgt, -, -⟩
          exact absurd (hperc.mpr hgt) hp
    · rw [if_neg hobs]
      constructor
      · intro h
        cases h
      · rintro ⟨-, hlt, -, -, -⟩
        exact absurd hlt hobs
  · rw [if_pos (by simp [hph])]
    constructor
    · intro h
      cases h
    · rintro ⟨h, -⟩
      exact absurd h hph

/-- Claim C7: a supplemental boost command for an agent is issued exactly
when the phase is stable, the agent is active and has an observed
throughput entry, the observation is below allocation times one minus
tolerance, the shortfall exceeds twenty percent of the allocation, and at
least 30 seconds remain before the next rotation; when issued, its
bandwidth is the truncated shortfall clamped into the 100 to 500 range.
Allocations are assumed positive. -/
theorem boost_issued_iff (phase : String) (active : List (String × AgentAllocation))
    (breakdown : List (String × ℚ)) (tol ttr : ℚ) (id : String) (b : ℤ)
    (hpos : ∀ p ∈ active, 0 < p.2.allocatedBW) :
    (id, b) ∈ adjustBandwidthIfNeeded phase active breakdown tol ttr ↔
      phase = "stable" ∧ 30 ≤ ttr ∧
      ∃ p ∈ active, p.1 = id ∧ ∃ obs, lookupKey breakdown id = some obs ∧
        obs < (p.2.allocatedBW : ℚ) * (1 - tol) ∧
        (p.2.allocatedBW : ℚ) - obs > (p.2.allocatedBW : ℚ) * (20 / 100) ∧
        b = Bandwidth.Clamp64 (Bandwidth.truncQ ((p.2.allocatedBW : ℚ) - obs)) 100 500 := by
  unfold adjustBandwidthIfNeeded
  rw [List.mem_filterMap]
  constructor
  · rintro ⟨p, hp, hf⟩
    rcases hlk : lookupKey breakdown p.1 with - | obs
    · rw [hlk] at hf
      cases hf
    · rw [hlk] at hf
      obtain ⟨b0, hb0, hpair⟩ := Option.map_eq_some'.mp hf
      have hid : p.1 = id := congrArg Prod.fst hpair
      have hbb : b0 = b := congrArg Prod.snd hpair
      rw [hbb] at hb0
      obtain ⟨hph, hobs, hgt, h30, hbeq⟩ :=
        (boostDecision_eq_some phase p.2.allocatedBW obs tol ttr b (hpos p hp)).mp hb0
      exact ⟨hph, h30, p, hp, hid, obs, hid ▸ hlk, hobs, hgt, hbeq⟩
  · rintro ⟨hph, h30, p, hp, hid, obs, hlk, hobs, hgt, hbeq⟩
    refine ⟨p, hp, ?_⟩
    rw [hid, hlk]
    rw [Option.map_eq_some']
    refine ⟨b, ?_, rfl⟩
    exact (boostDecision_eq_some phase p.2.allocatedBW obs tol ttr b (hpos p hp)).mpr
      ⟨hph, hobs, hgt, h30, hbeq⟩

/-- A concrete active allocation for the boost witness. -/
def allocBoost : AgentAllocation :=
  { agentID := "a", allocatedBW := 1000, startTime := 0, plannedDuration := 0,
    currentCommand := "c0", url := "u0" }

/-- Witness for boost_issued_iff at a concrete input: an agent allocated
1000 units observing 600 (a 40 percent shortfall) during the stable phase
with 60 seconds to rotation receives a boost of 400 units. -/
theorem boost_issued_iff_witness :
    ("a", (400:ℤ)) ∈ adjustBandwidthIfNeeded "stable" [("a", allocBoost)]
      [("a", (600:ℚ))] (15/100) 60 := by
  have hpos : ∀ p ∈ [("a", allocBoost)], 0 < p.2.allocatedBW := by
    intro p hp
    simp only [List.mem_singleton] at hp
    subst hp
    norm_num [allocBoost]
  refine (boost_issued_iff "stable" [("a", allocBoost)] [("a", (600:ℚ))]
      (15/100) 60 "a" 400 hpos).mpr ?_
  refine ⟨rfl, by norm_num, ("a", allocBoost), by simp, rfl, 600, ?_, ?_, ?_, ?_⟩
  · rfl
  · norm_num [allocBoost]
  · norm_num [allocBoost]
  · norm_num [allocBoost, Bandwidth.Clamp64, Bandwidth.truncQ]

/-- The scheduler-level allocateBandwidth: runs the calculator's
AllocateBandwidth over the selected agents, caps each result by the
agent's declared max capacity, and builds a fresh allocation record for
every selected agent, keyed by its id, with the rotation time as start
time and the Go zero values for the command id, resource locator and
planned duration (those are only filled in later by startAgent, and only
for agents in the start set). -/
def allocateBandwidth (agents : List AgentConfig) (targetTotal : ℚ) (mi ma : ℤ)
    (rf : ℚ) (w v : ℕ → ℚ) (now : ℚ) : List (String × AgentAllocation) :=
  if agents = [] then []
  else
    List.zipWith
      (fun agent bw =>
        (agent.id,
          { agentID := agent.id,
            allocatedBW := if agent.maxBandwidth < bw then agent.maxBandwidth else bw,
            startTime := now,
            plannedDuration := 0,
            currentCommand := "",
            url := "" }))
      agents
      (Bandwidth.AllocateBandwidth targetTotal agents.length mi ma rf w v)

/-- findAgentsToStop from the scheduler: ids active now but absent from
the newly computed allocation map. -/
def findAgentsToStop (active newAllocations : List (String × AgentAllocation)) :
    List String :=
  (active.filter (fun p => (lookupKey newAllocations p.1).isNone)).map (fun p => p.1)

/-- findAgentsToStart from the scheduler: allocations of the newly
computed map whose ids are not active yet. -/
def findAgentsToStart (active newAllocations : List (String × AgentAllocation)) :
    List AgentAllocation :=
  (newAllocations.filter (fun p => (lookupKey active p.1).isNone)).map (fun p => p.2)

/-- Phase 4 of performRotation, the commit: the active-allocation map is
wholesale replaced by the newly computed one, the rotation time is
recorded, the rotation counter incremented and the phase set to stable. -/
def rotationCommit (s : SchedulerState) (newAllocations : List (String × AgentAllocation))
    (now : ℚ) : SchedulerState :=
  { s with
    phase := "stable"
    activeAgents := newAllocations
    lastRotation := now
    rotationCount := s.rotationCount + 1 }

/-- Claim C1 (amended): an agent present both in the active allocations
and in the newly computed allocation map is excluded from the stop set
and from the start set of the rotation, so it is sent no stop or start
command; but its recorded allocation is not retained: the commit replaces
the whole map, so after the rotation the agent's entry is the freshly
computed record, with a new allocated throughput and start time and with
empty command id and resource locator. -/
theorem rotation_overlap_spec (s : SchedulerState)
    (newAllocations : List (String × AgentAllocation)) (now : ℚ) (id : String)
    (hold : (lookupKey s.activeAgents id).isSome)
    (hnew : (lookupKey newAllocations id).isSome)
    (hkeys : ∀ p ∈ newAllocations, p.2.agentID = p.1) :
    id ∉ findAgentsToStop s.activeAgents newAllocations ∧
    (∀ a ∈ findAgentsToStart s.activeAgents newAllocations, a.agentID ≠ id) ∧
    lookupKey (rotationCommit s newAllocations now).activeAgents id
      = lookupKey newAllocations id := by
  refine ⟨?_, ?_, rfl⟩
  · intro hmem
    unfold findAgentsToStop at hmem
    obtain ⟨p, hpf, hpid⟩ := List.mem_map.mp hmem
    have hcond := List.of_mem_filter hpf
    rw [hpid] at hcond
    rw [Option.isNone_iff_eq_none] at hcond
    rw [hcond] at hnew
    cases hnew
  · intro a ha haid
    unfold findAgentsToStart at ha
    obtain ⟨p, hpf, hpa⟩ := List.mem_map.mp ha
    have hcond := List.of_mem_filter hpf
    have hpmem := List.mem_of_mem_filter hpf
    have hkey := hkeys p hpmem
    rw [← hpa, hkey] at haid
    rw [haid] at hcond
    rw [Option.isNone_iff_eq_none] at hcond
    rw [hcond] at hold
    cases hold

/-- The single configured agent of the concrete rotation instance. -/
def agentExA : AgentConfig := { id := "a", maxBandwidth := 2000, region := "us" }

/-- The agent pool used by the concrete rotation instance. -/
def agentsEx : List AgentConfig := [agentExA]

/-- The newly computed allocation map of the concrete rotation: one
connected agent, target 600, bounds 100 to 1000, no randomness, rotation
time 100. -/
def rotationNewAllocs : List (String × AgentAllocation) :=
  allocateBandwidth agentsEx 600 100 1000 0 (fun _ => 1/2) (fun _ => 1/2) 100

theorem rotationNewAllocs_eval :
    rotationNewAllocs = [("a",
      { agentID := "a", allocatedBW := 600, startTime := 100, plannedDuration := 0,
        currentCommand := "", url := "" })] := by
  have hbw : Bandwidth.AllocateBandwidth 600 agentsEx.length
      100 1000 0 (fun _ => 1/2) (fun _ => 1/2) = [600] := by
    have hlen : agentsEx.length = 1 := rfl
    rw [hlen]
    norm_num [Bandwidth.AllocateBandwidth, Bandwidth.allocFirstPass,
      Bandwidth.firstPassAlloc, Bandwidth.allocWeight, Bandwidth.Clamp64,
      Bandwidth.truncQ, List.range_succ]
  unfold rotationNewAllocs allocateBandwidth
  rw [if_neg (by simp [agentsEx])]
  rw [hbw]
  norm_num [agentsEx, agentExA, List.zipWith]

/-- Claim C1 counterexample: the agent with id a is active before the
rotation (with allocation 500, start time 10, command c1, locator u1) and
is also in the newly computed allocation map, yet after the commit its
recorded allocation is the fresh record (600 units, start time 100, empty
command and locator), not its prior one: the rotation does not retain the
prior allocation of a worker present in both sets. -/
theorem rotation_retention_counterexample :
    (lookupKey stateEx.activeAgents "a").isSome ∧
    (lookupKey rotationNewAllocs "a").isSome ∧
    lookupKey (rotationCommit stateEx rotationNewAllocs 100).activeAgents "a"
      ≠ lookupKey stateEx.activeAgents "a" := by
  have hnew := rotationNewAllocs_eval
  refine ⟨by simp [stateEx, lookupKey], by rw [hnew]; simp [lookupKey], ?_⟩
  rw [rotationCommit, hnew]
  simp only [stateEx, lookupKey, allocA, if_pos]
  intro h
  have := Option.some.inj h
  have hcmd := congrArg AgentAllocation.currentCommand this
  simp at hcmd

/-- Witness for rotation_overlap_spec at the concrete rotation instance. -/
theorem rotation_overlap_spec_witness :
    "a" ∉ findAgentsToStop stateEx.activeAgents rotationNewAllocs ∧
    (∀ a ∈ findAgentsToStart stateEx.activeAgents rotationNewAllocs, a.agentID ≠ "a") ∧
    lookupKey (rotationCommit stateEx rotationNewAllocs 100).activeAgents "a"
      = lookupKey rotationNewAllocs "a" := by
  refine rotation_overlap_spec stateEx rotationNewAllocs 100 "a" ?_ ?_ ?_
  · simp [stateEx, lookupKey]
  · rw [rotationNewAllocs_eval]
    simp [lookupKey]
  · rw [rotationNewAllocs_eval]
    intro p hp
    simp only [List.mem_singleton] at hp
    subst hp
    rfl

/-- Abstract state of rotation scheduling concurrency: the current time,
the stored next-rotation deadline, and how many rotation tasks are
currently executing. -/
structure RotationSim where
  now : ℚ
  deadline : ℚ
  inFlight : ℕ
deriving DecidableEq

/-- The transitions the scheduler code admits, abstracted from
evaluateAndAdjust and performRotation: a periodic tick whose check that
the current time is after the stored deadline succeeds spawns a rotation
task as an independent goroutine without changing the deadline (the code
reschedules only in the last phase of performRotation); time may advance,
for example while a rotation blocks in its ramp-down sleep; and a
rotation task finishing sets the next deadline from the current time and
leaves the set of running tasks. -/
inductive RotationStep : RotationSim → RotationSim → Prop
  | tickSpawn (s : RotationSim) (h : s.deadline < s.now) :
      RotationStep s { now := s.now, deadline := s.deadline, inFlight := s.inFlight + 1 }
  | advance (s : RotationSim) (d : ℚ) (h : 0 ≤ d) :
      RotationStep s { now := s.now + d, deadline := s.deadline, inFlight := s.inFlight }
  | finishRotation (s : RotationSim) (interval : ℚ) (h0 : 0 < s.inFlight)
      (h1 : 0 < interval) :
      RotationStep s
        { now := s.now
          deadline := s.now + interval
          inFlight := s.inFlight - 1 }

/-- The initial state: the scheduler constructor sets the next-rotation
deadline to the start time, and nothing is in flight. -/
def rotationInit : RotationSim := { now := 0, deadline := 0, inFlight := 0 }

/-- Claim C2 refutation: the scheduler has no single-flight guard, so the
interleaving in which a tick fires while an earlier rotation is still
executing (the 5 second tick period is shorter than a ramp-down wait, and
the deadline is only moved at the end of the rotation) spawns a second
concurrent rotation: a state with two rotation tasks in flight is
reachable. -/
theorem concurrent_rotations_reachable :
    ∃ s : RotationSim, Relation.ReflTransGen RotationStep rotationInit s ∧
      2 ≤ s.inFlight := by
  refine ⟨{ now := 6, deadline := 0, inFlight := 2 }, ?_, by norm_num⟩
  have h1 : RotationStep rotationInit { now := 1, deadline := 0, inFlight := 0 } := by
    have h := RotationStep.advance rotationInit 1 (by norm_num)
    norm_num [rotationInit] at h
    exact h
  have h2 : RotationStep { now := 1, deadline := 0, inFlight := 0 }
      { now := 1, deadline := 0, inFlight := 1 } :=
    RotationStep.tickSpawn { now := 1, deadline := 0, inFlight := 0 } (by norm_num)
  have h3 : RotationStep { now := 1, deadline := 0, inFlight := 1 }
      { now := 6, deadline := 0, inFlight := 1 } := by
    have h := RotationStep.advance { now := 1, deadline := 0, inFlight := 1 } 5 (by norm_num)
    norm_num at h
    exact h
  have h4 : RotationStep { now := 6, deadline := 0, inFlight := 1 }
      { now := 6, deadline := 0, inFlight := 2 } :=
    RotationStep.tickSpawn { now := 6, deadline := 0, inFlight := 1 } (by norm_num)
  exact Relation.ReflTransGen.trans (Relation.ReflTransGen.single h1)
    (Relation.ReflTransGen.trans (Relation.ReflTransGen.single h2)
      (Relation.ReflTransGen.trans (Relation.ReflTransGen.single h3)
        (Relation.ReflTransGen.single h4)))

end Controller
